import Mathlib

/-!
Verification of the enproxy Outbound Worker (`conn_impl_requests.go`):
`processRequests`, `submitRequest` and `cleanupAfterRequests`.

The worker is embedded as a trace semantics: the environment's scheduling
decisions (which `select` branch fires, what the proxy answers) are an
explicit list of `Step`s, and the worker is a function from those steps to
the list of observable `Effect`s (channel sends, body/connection closes,
log lines) it performs, in order.
-/

namespace Enproxy

/-- Errors are modelled by their Go message strings. -/
abbrev Err := String

/-- Go's io.EOF sentinel ("EOF"). -/
def io_EOF : Err := "EOF"

/-- Go's io.ErrUnexpectedEOF sentinel ("unexpected EOF"). -/
def io_ErrUnexpectedEOF : Err := "unexpected EOF"

/-- Modelled from the spec: the header constant X_ENPROXY_PROXY_HOST is declared
outside the provided sources; per the spec the exact header naming is an
implementation choice, only its role (carrying the session pin) matters. -/
def X_ENPROXY_PROXY_HOST : String := "X-Enproxy-Proxy-Host"

/-- Result of a Go call returning (value, error): exactly one side is set. -/
inductive Res (α : Type) where
  | ok (a : α)
  | fail (e : Err)
deriving DecidableEq

/-- An HTTP response as the worker observes it: its headers and an identifier
for its body (used to track Body.Close calls). -/
structure Response where
  headers : List (String × String)
  bodyId : Nat
deriving DecidableEq

/-- Go's http.Header.Get: first value for the key, or "" when absent. -/
def headerGet (r : Response) (k : String) : String :=
  match r.headers.find? (fun p => p.1 == k) with
  | some p => p.2
  | none => ""

/-- The hostWithResponse struct posted on initialResponseCh. -/
structure hostWithResponse where
  proxyHost : String
  resp : Option Response
  err : Option Err
deriving DecidableEq

/-- Observable actions of the worker, in program order. `ack e` is a send of
`e` on requestFinishedCh (`none` = nil error); `initial` is a send on
initialResponseCh; `exchange conn host req` is the doRequest call for item
`req` over connection `conn` carrying proxyHost `host`. -/
inductive Effect where
  | logged (msg : String)
  | exchange (conn : Nat) (proxyHost : String) (req : Nat)
  | ack (e : Option Err)
  | initial (h : hostWithResponse)
  | bodyClose (bodyId : Nat)
  | connClose (conn : Nat)
  | setDoneRequesting
  | closeRequestOut
deriving DecidableEq

/-- One resolution of the worker's per-iteration nondeterminism: the result of
the isClosed() check and, when false, which `select` branch fires. An `item`
step carries the request id received from requestOutCh, whether the current
proxy connection is still usable, the dialer's answer should a redial be
needed, and the outcome of the doRequest exchange. A `timeout` step carries
the value isIdle() returns when the idle timer fires. A `fault` step is an
unexpected runtime fault (panic) inside the loop. -/
inductive Step where
  | closed
  | item (req : Nat) (usable : Bool) (dialRes : Res Nat) (exch : Res Response)
  | stop
  | timeout (idle : Bool)
  | fault
deriving DecidableEq

/-- The mkerror helper of processRequests. -/
def mkerror (addr proxyHost text e : String) : Err :=
  "Dest: " ++ addr ++ "    ProxyHost: " ++ proxyHost ++ "    " ++ text ++ ": " ++ e

/-- Modelled from the spec: redialProxyIfNecessary is defined outside the
provided sources. Per the spec (Reconnection Policy), it checks whether the
previously used relay connection is still usable; if so it is kept, otherwise
the Transport Dialer is re-invoked and its result (fresh connection or error)
returned. -/
def redialProxyIfNecessary (usable : Bool) (conn : Nat) (dialRes : Res Nat) : Res Nat :=
  if usable then Res.ok conn else dialRes

/-- Result of the worker's main loop: the effects it performed, the proxy
connection held at exit, whether it exited by fault, the value of the `resp`
variable at exit, and the item ids it consumed from requestOutCh. -/
structure LoopRes where
  effects : List Effect
  conn : Nat
  panicked : Bool
  lastResp : Option Response
  consumed : List Nat
deriving DecidableEq

/-- The for/select loop of processRequests (lines 42-91), one Step per
iteration: check isClosed, then receive an item (redial if necessary, issue
the exchange, send the outcome on requestFinishedCh, then either hand the
first response to initialResponseCh or close the body), or stop, or let the
idle timer fire and exit only when isIdle(). -/
def loopRun (addr : String) : Bool → String → Nat → Option Response → List Step → LoopRes
  | _, _, conn, resp, [] => ⟨[], conn, false, resp, []⟩
  | _, _, conn, resp, Step.closed :: _ => ⟨[], conn, false, resp, []⟩
  | _, _, conn, resp, Step.stop :: _ => ⟨[], conn, false, resp, []⟩
  | _, _, conn, resp, Step.fault :: _ => ⟨[], conn, true, resp, []⟩
  | first, proxyHost, conn, resp, Step.timeout idle :: rest =>
      if idle then ⟨[], conn, false, resp, []⟩
      else loopRun addr first proxyHost conn resp rest
  | first, proxyHost, conn, resp, Step.item r usable dialRes exch :: rest =>
      match redialProxyIfNecessary usable conn dialRes with
      | Res.fail e =>
          ⟨Effect.logged (mkerror addr proxyHost "Unable to redial proxy" e) ::
             (if first then
               [Effect.initial ⟨"", none, some (mkerror addr proxyHost "Unable to redial proxy" e)⟩]
              else []),
           conn, false, resp, [r]⟩
      | Res.ok conn2 =>
          match exch with
          | Res.fail e =>
              ⟨Effect.exchange conn2 proxyHost r :: Effect.ack (some e) ::
                 Effect.logged (mkerror addr proxyHost "Unable to issue write request" e) ::
                 (if first then
                   [Effect.initial
                     ⟨"", none, some (mkerror addr proxyHost "Unable to issue write request" e)⟩]
                  else []),
               conn2, false, none, [r]⟩
          | Res.ok resp2 =>
              if first then
                let h2 := headerGet resp2 X_ENPROXY_PROXY_HOST
                let res := loopRun addr false h2 conn2 (some resp2) rest
                ⟨Effect.exchange conn2 proxyHost r :: Effect.ack none ::
                   Effect.initial ⟨h2, some resp2, none⟩ :: res.effects,
                 res.conn, res.panicked, res.lastResp, r :: res.consumed⟩
              else
                let res := loopRun addr false proxyHost conn2 (some resp2) rest
                ⟨Effect.exchange conn2 proxyHost r :: Effect.ack none ::
                   Effect.bodyClose resp2.bodyId :: res.effects,
                 res.conn, res.panicked, res.lastResp, r :: res.consumed⟩

/-- The session state cleanupAfterRequests and submitRequest share: the
doneRequesting flag, the contents of requestOutCh, and whether that channel
has been closed. -/
structure ConnState where
  doneRequesting : Bool
  requestOut : List Nat
  requestOutClosed : Bool
deriving DecidableEq

/-- submitRequest (lines 97-106): under the read lock, reject when
doneRequesting is set, otherwise enqueue on requestOutCh and accept. -/
def submitRequest (s : ConnState) (r : Nat) : Bool × ConnState :=
  if s.doneRequesting then (false, s)
  else (true, { s with requestOut := s.requestOut ++ [r] })

/-- The value cleanup sends for each drained item: io.ErrUnexpectedEOF after a
recovered fault, io.EOF otherwise (lines 114-118). -/
def ackVal (panicked : Bool) : Err :=
  if panicked then io_ErrUnexpectedEOF else io_EOF

/-- The drain loop of cleanupAfterRequests (lines 111-120): while requestOutCh
or stopRequestCh has a value, receive one — the `choices` list resolves the
select when both are ready, items drained first once it runs out — sending one
acknowledgment per drained item; stop receives do nothing and leave no trace. -/
def drainAcks (panicked : Bool) : List Nat → Nat → List Bool → List Effect
  | ps, 0, _ => ps.map (fun _ => Effect.ack (some (ackVal panicked)))
  | ps, _ + 1, [] => ps.map (fun _ => Effect.ack (some (ackVal panicked)))
  | [], s + 1, _ :: cs => drainAcks panicked [] s cs
  | _ :: ps, s + 1, true :: cs =>
      Effect.ack (some (ackVal panicked)) :: drainAcks panicked ps (s + 1) cs
  | p :: ps, s + 1, false :: cs => drainAcks panicked (p :: ps) s cs

/-- cleanupAfterRequests (lines 108-131): recover, drain pending items and
stop signals, then in the default branch set doneRequesting under the write
lock, close requestOutCh, and close the body of the response it was passed,
if any. -/
def cleanupAfterRequests (panicked : Bool) (stops : Nat) (choices : List Bool)
    (respArg : Option Response) (s : ConnState) : List Effect × ConnState :=
  (drainAcks panicked s.requestOut stops choices ++
     Effect.setDoneRequesting :: Effect.closeRequestOut ::
       (match respArg with
        | some resp => [Effect.bodyClose resp.bodyId]
        | none => []),
   { doneRequesting := true, requestOut := [], requestOutClosed := true })

/-- Result of a whole processRequests run: the full effect trace, the session
state after cleanup, the response value that was passed to cleanup, and the
value of the `resp` variable when the function exited. -/
structure RunRes where
  effects : List Effect
  state : ConnState
  cleanupArg : Option Response
  lastResp : Option Response
deriving DecidableEq

/-- processRequests (lines 16-92): dial the proxy (exiting on failure), run
the loop, then the deferred closer of the current proxy connection and the
deferred cleanupAfterRequests run, in that order. In Go the argument of the
deferred call `defer c.cleanupAfterRequests(resp)` (line 19) is evaluated at
the defer statement, when `resp` is still nil, so cleanup always receives
nil regardless of what `resp` later holds. -/
def processRequests (addr : String) (dial : Res Nat) (steps : List Step)
    (stops : Nat) (choices : List Bool) (s : ConnState) : RunRes :=
  let cleanupArg : Option Response := none
  match dial with
  | Res.fail e =>
      let c := cleanupAfterRequests false stops choices cleanupArg s
      ⟨Effect.logged ("Unable to dial proxy for POSTing request: " ++ e) :: c.1,
       c.2, cleanupArg, none⟩
  | Res.ok conn =>
      let res := loopRun addr true "" conn none steps
      let c := cleanupAfterRequests res.panicked stops choices cleanupArg s
      ⟨res.effects ++ Effect.connClose res.conn :: c.1, c.2, cleanupArg, res.lastResp⟩

/-! Trace observers. -/

/-- The request ids of the exchange effects of a trace, in order. -/
def exchangeReqs (l : List Effect) : List Nat :=
  l.filterMap (fun e =>
    match e with
    | Effect.exchange _ _ r => some r
    | _ => none)

/-- The request ids of the item steps of a schedule, in order: the order the
application enqueued them on requestOutCh. -/
def itemReqs (l : List Step) : List Nat :=
  l.filterMap (fun st =>
    match st with
    | Step.item r _ _ _ => some r
    | _ => none)

/-- The values of the ack effects of a trace, in order. -/
def acksOf (l : List Effect) : List (Option Err) :=
  l.filterMap (fun e =>
    match e with
    | Effect.ack a => some a
    | _ => none)

/-- Number of ack effects in a trace. -/
def ackCount (l : List Effect) : Nat := (acksOf l).length

/-- Number of exchange effects in a trace. -/
def exchCount (l : List Effect) : Nat := (exchangeReqs l).length

/-- Number of bodyClose effects in a trace. -/
def bodyCloseCount (l : List Effect) : Nat :=
  (l.filterMap (fun e =>
    match e with
    | Effect.bodyClose b => some b
    | _ => none)).length

/-- Scans a trace with a flag recording whether an exchange is outstanding
(issued, response not yet acknowledged): true when no exchange is ever issued
while another is outstanding, i.e. at most one exchange in flight. -/
def seqOk : Bool → List Effect → Bool
  | _, [] => true
  | true, Effect.exchange _ _ _ :: _ => false
  | true, Effect.ack _ :: t => seqOk false t
  | true, _ :: t => seqOk true t
  | false, Effect.exchange _ _ _ :: t => seqOk true t
  | false, _ :: t => seqOk false t

/-- True when every exchange effect is immediately followed by an ack effect:
the acknowledgment is sent directly after doRequest returns, before anything
else happens. -/
def ackFollows : List Effect → Bool
  | [] => true
  | Effect.exchange _ _ _ :: Effect.ack _ :: t => ackFollows t
  | Effect.exchange _ _ _ :: _ => false
  | _ :: t => ackFollows t

/-- True when every exchange effect in the trace carries proxyHost `h`. -/
def allExchHosts (h : String) : List Effect → Bool
  | [] => true
  | Effect.exchange _ h2 _ :: t => h2 == h && allExchHosts h t
  | _ :: t => allExchHosts h t

/-- Modelled from the spec: the dial entry point is defined outside the
provided sources. Per the spec, Dial submits the initial outbound item and
synchronously awaits the first value delivered on the acknowledgment channel;
`none` means that wait never completes, `some none` a nil (success) value,
`some (some e)` that Dial observes failure `e`. -/
def dialObserves (run : RunRes) : Option (Option Err) :=
  (acksOf run.effects).head?

/-! Small computation rules for the trace observers. -/

@[simp] theorem acksOf_nil : acksOf [] = [] := rfl

@[simp] theorem acksOf_cons_logged (m : String) (t : List Effect) :
    acksOf (Effect.logged m :: t) = acksOf t := rfl

@[simp] theorem acksOf_cons_exchange (c : Nat) (h : String) (r : Nat) (t : List Effect) :
    acksOf (Effect.exchange c h r :: t) = acksOf t := rfl

@[simp] theorem acksOf_cons_ack (a : Option Err) (t : List Effect) :
    acksOf (Effect.ack a :: t) = a :: acksOf t := rfl

@[simp] theorem acksOf_cons_initial (h : hostWithResponse) (t : List Effect) :
    acksOf (Effect.initial h :: t) = acksOf t := rfl

@[simp] theorem acksOf_cons_bodyClose (b : Nat) (t : List Effect) :
    acksOf (Effect.bodyClose b :: t) = acksOf t := rfl

@[simp] theorem acksOf_cons_connClose (c : Nat) (t : List Effect) :
    acksOf (Effect.connClose c :: t) = acksOf t := rfl

@[simp] theorem acksOf_cons_setDone (t : List Effect) :
    acksOf (Effect.setDoneRequesting :: t) = acksOf t := rfl

@[simp] theorem acksOf_cons_closeOut (t : List Effect) :
    acksOf (Effect.closeRequestOut :: t) = acksOf t := rfl

@[simp] theorem acksOf_append (l1 l2 : List Effect) :
    acksOf (l1 ++ l2) = acksOf l1 ++ acksOf l2 := by
  simp [acksOf, List.filterMap_append]

/-- Acks of a list of identical ack effects. -/
theorem acksOf_replicate_ack (v : Option Err) (n : Nat) :
    acksOf (List.replicate n (Effect.ack v)) = List.replicate n v := by
  induction n with
  | zero => rfl
  | succ n ih => simp [List.replicate_succ, ih]

/-- Each pending item drained by cleanup produces exactly one acknowledgment,
always carrying the sentinel chosen by the panicked flag; stop signals add
none. -/
theorem acksOf_drainAcks (p : Bool) (ps : List Nat) (s : Nat) (cs : List Bool) :
    acksOf (drainAcks p ps s cs) = List.replicate ps.length (some (ackVal p)) := by
  induction cs generalizing ps s with
  | nil => cases s <;> simp [drainAcks, acksOf_replicate_ack]
  | cons c cs ih =>
    cases s with
    | zero => simp [drainAcks, acksOf_replicate_ack]
    | succ s =>
      cases ps with
      | nil =>
        rw [drainAcks]
        simpa using ih [] s
      | cons p2 ps =>
        cases c with
        | true => rw [drainAcks]; simp [ih, List.replicate_succ]
        | false => rw [drainAcks]; exact ih (p2 :: ps) s

/-- C2: whenever the Outbound Worker terminates, for any cause, cleanup sends
exactly one acknowledgment for each item still pending in the input channel —
io.EOF on normal termination, io.ErrUnexpectedEOF after a recovered fault —
and no other acknowledgment, so no caller blocked on an acknowledgment for a
pending item waits forever. -/
theorem cleanup_acknowledges_every_pending_item (p : Bool) (stops : Nat)
    (cs : List Bool) (ra : Option Response) (s : ConnState) :
    acksOf (cleanupAfterRequests p stops cs ra s).1 =
      List.replicate s.requestOut.length
        (some (if p then io_ErrUnexpectedEOF else io_EOF)) := by
  unfold cleanupAfterRequests
  cases ra <;> simp [acksOf_drainAcks, ackVal]

/-- C4: after cleanup has run the session no longer accepts writes: the
doneRequesting flag is set, the input channel is closed, and every subsequent
submitRequest call returns false and leaves the state unchanged, enqueueing
nothing. -/
theorem shutdown_rejects_new_submissions (p : Bool) (stops : Nat) (cs : List Bool)
    (ra : Option Response) (s : ConnState) (r : Nat) :
    (cleanupAfterRequests p stops cs ra s).2.doneRequesting = true ∧
    (cleanupAfterRequests p stops cs ra s).2.requestOutClosed = true ∧
    submitRequest (cleanupAfterRequests p stops cs ra s).2 r
      = (false, (cleanupAfterRequests p stops cs ra s).2) := by
  refine ⟨rfl, rfl, ?_⟩
  simp [cleanupAfterRequests, submitRequest]

/-- C8: when the idle timer fires the worker terminates only if the session is
idle at that moment; when it is not idle the timer firing has no effect on the
run and the worker keeps waiting — it can only observe the timer between
exchanges, never during one. -/
theorem idle_timer_soft_cancellation (addr : String) (f : Bool) (h : String)
    (conn : Nat) (resp : Option Response) (rest : List Step) :
    loopRun addr f h conn resp (Step.timeout true :: rest)
        = ⟨[], conn, false, resp, []⟩ ∧
    loopRun addr f h conn resp (Step.timeout false :: rest)
        = loopRun addr f h conn resp rest := by
  constructor <;> simp [loopRun]

/-- C7: a still-usable relay connection is kept and an unusable one is
replaced by re-invoking the dialer; but a failure of the exchange itself is
terminal: the item's acknowledgment carries the error, the error is logged,
and the worker returns without consuming any further step — the request is
never reissued. -/
theorem redial_policy_and_terminal_exchange_failure (addr h : String) (conn : Nat)
    (d : Res Nat) (e : Err) (r : Nat) (resp : Option Response) (rest : List Step) :
    redialProxyIfNecessary true conn d = Res.ok conn ∧
    redialProxyIfNecessary false conn d = d ∧
    loopRun addr false h conn resp (Step.item r true d (Res.fail e) :: rest)
      = ⟨[Effect.exchange conn h r, Effect.ack (some e),
          Effect.logged (mkerror addr h "Unable to issue write request" e)],
         conn, false, none, [r]⟩ := by
  refine ⟨rfl, rfl, ?_⟩
  simp [loopRun, redialProxyIfNecessary]

/-- The response answering the first exchange of the concrete run used for C9. -/
def resp9 : Response := ⟨[(X_ENPROXY_PROXY_HOST, "proxy-7")], 7⟩

/-- A concrete run: dial succeeds, one successful exchange, then the stop
signal; nothing pending at cleanup. -/
def run9 : RunRes :=
  processRequests "example.org:80" (Res.ok 1)
    [Step.item 0 true (Res.ok 1) (Res.ok resp9), Step.stop] 0 [] ⟨false, [], false⟩

/-- C9 (code bug): the deferred call cleanupAfterRequests(resp) evaluated its
argument at the defer statement, when resp was still nil, so cleanup receives
nil — not the most recent response — and its body-release branch never runs,
even though the resp variable holds the last response at exit; the relay
connection is closed by the separately deferred closure. Had cleanup received
the current resp, it would have closed the body. -/
theorem cleanup_receives_nil_response :
    run9.lastResp = some resp9 ∧
    run9.cleanupArg = none ∧
    bodyCloseCount run9.effects = 0 ∧
    Effect.connClose 1 ∈ run9.effects ∧
    bodyCloseCount (cleanupAfterRequests false 0 [] run9.lastResp ⟨false, [], false⟩).1 = 1 := by
  refine ⟨by decide, rfl, by decide, by decide, by decide⟩

/-- C6: when the transport dial function fails, the worker exits before any
exchange and cleanup drains the pending initial item with the io.EOF
sentinel, so the modelled Dial caller, awaiting the first value on the
acknowledgment channel, synchronously observes a non-nil (error) value
instead of blocking. -/
theorem dial_proxy_failure_observed_synchronously (addr : String) (e : Err)
    (steps : List Step) (stops : Nat) (cs : List Bool) (r0 : Nat) (pend : List Nat)
    (dr rc : Bool) :
    dialObserves (processRequests addr (Res.fail e) steps stops cs ⟨dr, r0 :: pend, rc⟩)
      = some (some io_EOF) := by
  unfold dialObserves processRequests
  simp [cleanupAfterRequests, acksOf_drainAcks, ackVal, List.replicate_succ]

/-- Every exchange effect of a run that starts with the pin already learned
(first = false, proxyHost = h) carries exactly h: the pin is attached to every
exchange and never changes for the rest of the session. -/
theorem loopRun_hosts (addr h : String) (conn : Nat) (resp : Option Response)
    (steps : List Step) :
    allExchHosts h (loopRun addr false h conn resp steps).effects = true := by
  induction steps generalizing conn resp with
  | nil => rfl
  | cons st rest ih =>
    cases st with
    | closed => rfl
    | stop => rfl
    | fault => rfl
    | timeout idle =>
      cases idle with
      | true => rfl
      | false => simpa [loopRun] using ih conn resp
    | item r u d ex =>
      cases hd : redialProxyIfNecessary u conn d with
      | fail e => simp [loopRun, hd, allExchHosts]
      | ok conn2 =>
        cases ex with
        | fail e => simp [loopRun, hd, allExchHosts]
        | ok resp2 =>
          simpa [loopRun, hd, allExchHosts] using ih conn2 (some resp2)

/-- At most one exchange is outstanding at any point of the loop trace: every
exchange is acknowledged before the next one is issued. -/
theorem loopRun_seqOk (addr : String) (f : Bool) (h : String) (conn : Nat)
    (resp : Option Response) (steps : List Step) :
    seqOk false (loopRun addr f h conn resp steps).effects = true := by
  induction steps generalizing f h conn resp with
  | nil => rfl
  | cons st rest ih =>
    cases st with
    | closed => rfl
    | stop => rfl
    | fault => rfl
    | timeout idle =>
      cases idle with
      | true => rfl
      | false => simpa [loopRun] using ih f h conn resp
    | item r u d ex =>
      cases hd : redialProxyIfNecessary u conn d with
      | fail e => cases f <;> simp [loopRun, hd, seqOk]
      | ok conn2 =>
        cases ex with
        | fail e => cases f <;> simp [loopRun, hd, seqOk]
        | ok resp2 =>
          cases f with
          | true =>
            simpa [loopRun, hd, seqOk] using
              ih false (headerGet resp2 X_ENPROXY_PROXY_HOST) conn2 (some resp2)
          | false =>
            simpa [loopRun, hd, seqOk] using ih false h conn2 (some resp2)

/-- Every exchange effect of a loop trace is immediately followed by its
acknowledgment: the send on requestFinishedCh happens directly after doRequest
returns, before the response is inspected or the loop decides anything else. -/
theorem loopRun_ackFollows (addr : String) (f : Bool) (h : String) (conn : Nat)
    (resp : Option Response) (steps : List Step) :
    ackFollows (loopRun addr f h conn resp steps).effects = true := by
  induction steps generalizing f h conn resp with
  | nil => rfl
  | cons st rest ih =>
    cases st with
    | closed => rfl
    | stop => rfl
    | fault => rfl
    | timeout idle =>
      cases idle with
      | true => rfl
      | false => simpa [loopRun] using ih f h conn resp
    | item r u d ex =>
      cases hd : redialProxyIfNecessary u conn d with
      | fail e => cases f <;> simp [loopRun, hd, ackFollows]
      | ok conn2 =>
        cases ex with
        | fail e => cases f <;> simp [loopRun, hd, ackFollows]
        | ok resp2 =>
          cases f with
          | true =>
            simpa [loopRun, hd, ackFollows] using
              ih false (headerGet resp2 X_ENPROXY_PROXY_HOST) conn2 (some resp2)
          | false =>
            simpa [loopRun, hd, ackFollows] using ih false h conn2 (some resp2)

/-- The loop sends exactly as many acknowledgments as it issues exchanges. -/
theorem loopRun_ack_eq_exch (addr : String) (f : Bool) (h : String) (conn : Nat)
    (resp : Option Response) (steps : List Step) :
    ackCount (loopRun addr f h conn resp steps).effects
      = exchCount (loopRun addr f h conn resp steps).effects := by
  induction steps generalizing f h conn resp with
  | nil => rfl
  | cons st rest ih =>
    cases st with
    | closed => rfl
    | stop => rfl
    | fault => rfl
    | timeout idle =>
      cases idle with
      | true => rfl
      | false => simpa [loopRun] using ih f h conn resp
    | item r u d ex =>
      cases hd : redialProxyIfNecessary u conn d with
      | fail e => cases f <;> simp [loopRun, hd, ackCount, exchCount, acksOf, exchangeReqs]
      | ok conn2 =>
        cases ex with
        | fail e => cases f <;> simp [loopRun, hd, ackCount, exchCount, acksOf, exchangeReqs]
        | ok resp2 =>
          cases f with
          | true =>
            simpa [loopRun, hd, ackCount, exchCount, acksOf, exchangeReqs] using
              ih false (headerGet resp2 X_ENPROXY_PROXY_HOST) conn2 (some resp2)
          | false =>
            simpa [loopRun, hd, ackCount, exchCount, acksOf, exchangeReqs] using
              ih false h conn2 (some resp2)

/-- The exchanges of a loop trace are exactly an initial segment of the items
the application enqueued, in enqueue order: no reordering and no skipping. -/
theorem loopRun_exch_enqueue_order (addr : String) (f : Bool) (h : String)
    (conn : Nat) (resp : Option Response) (steps : List Step) :
    ∃ k, exchangeReqs (loopRun addr f h conn resp steps).effects
      = (itemReqs steps).take k := by
  induction steps generalizing f h conn resp with
  | nil => exact ⟨0, rfl⟩
  | cons st rest ih =>
    cases st with
    | closed => exact ⟨0, rfl⟩
    | stop => exact ⟨0, rfl⟩
    | fault => exact ⟨0, rfl⟩
    | timeout idle =>
      cases idle with
      | true => exact ⟨0, rfl⟩
      | false =>
        obtain ⟨k, hk⟩ := ih f h conn resp
        exact ⟨k, by simpa [loopRun, itemReqs] using hk⟩
    | item r u d ex =>
      cases hd : redialProxyIfNecessary u conn d with
      | fail e =>
        refine ⟨0, ?_⟩
        cases f <;> simp [loopRun, hd, exchangeReqs]
      | ok conn2 =>
        cases ex with
        | fail e =>
          refine ⟨1, ?_⟩
          cases f <;> simp [loopRun, hd, exchangeReqs, itemReqs]
        | ok resp2 =>
          cases f with
          | true =>
            obtain ⟨k, hk⟩ :=
              ih false (headerGet resp2 X_ENPROXY_PROXY_HOST) conn2 (some resp2)
            refine ⟨k + 1, ?_⟩
            simpa [loopRun, hd, exchangeReqs, itemReqs] using hk
          | false =>
            obtain ⟨k, hk⟩ := ih false h conn2 (some resp2)
            refine ⟨k + 1, ?_⟩
            simpa [loopRun, hd, exchangeReqs, itemReqs] using hk

/-- C1: at most one outbound exchange is in flight at any instant and
exchanges happen strictly in enqueue order: the loop trace issues exchanges
exactly for an initial segment of the enqueued items, in order, and never
issues an exchange while a previous one is unacknowledged — no pipelining. -/
theorem outbound_exchanges_sequential (addr : String) (f : Bool) (h : String)
    (conn : Nat) (resp : Option Response) (steps : List Step) :
    (∃ k, exchangeReqs (loopRun addr f h conn resp steps).effects
        = (itemReqs steps).take k) ∧
    seqOk false (loopRun addr f h conn resp steps).effects = true :=
  ⟨loopRun_exch_enqueue_order addr f h conn resp steps,
   loopRun_seqOk addr f h conn resp steps⟩

/-- C3: if the session's first exchange fails — whether the redial of the
relay fails or the exchange itself fails — the worker posts the error on the
one-shot initialResponseCh and terminates, issuing no exchange beyond the
failed one: the remaining schedule is ignored, whatever it holds. -/
theorem first_exchange_failure_is_terminal (addr : String) (conn : Nat)
    (n r : Nat) (d : Res Nat) (e : Err) (ex : Res Response) (rest : List Step) :
    loopRun addr true "" conn none
        (List.replicate n (Step.timeout false)
          ++ Step.item r false (Res.fail e) ex :: rest)
      = ⟨[Effect.logged (mkerror addr "" "Unable to redial proxy" e),
          Effect.initial ⟨"", none, some (mkerror addr "" "Unable to redial proxy" e)⟩],
         conn, false, none, [r]⟩ ∧
    loopRun addr true "" conn none
        (List.replicate n (Step.timeout false)
          ++ Step.item r true d (Res.fail e) :: rest)
      = ⟨[Effect.exchange conn "" r, Effect.ack (some e),
          Effect.logged (mkerror addr "" "Unable to issue write request" e),
          Effect.initial ⟨"", none, some (mkerror addr "" "Unable to issue write request" e)⟩],
         conn, false, none, [r]⟩ := by
  induction n with
  | zero => constructor <;> simp [loopRun, redialProxyIfNecessary]
  | succ n ih => simpa [List.replicate_succ, loopRun] using ih

/-- C5: on the first successful exchange the worker reads the pin from the
response's X_ENPROXY_PROXY_HOST header, posts it on the one-shot
initialResponseCh together with the response itself, and every exchange of
the remainder of the session carries exactly that pin, unchanged. -/
theorem first_response_pins_proxy_host (addr : String) (conn : Nat) (r : Nat)
    (d : Res Nat) (resp2 : Response) (rest : List Step) :
    (loopRun addr true "" conn none (Step.item r true d (Res.ok resp2) :: rest)).effects
      = Effect.exchange conn "" r :: Effect.ack none ::
          Effect.initial ⟨headerGet resp2 X_ENPROXY_PROXY_HOST, some resp2, none⟩ ::
          (loopRun addr false (headerGet resp2 X_ENPROXY_PROXY_HOST) conn
             (some resp2) rest).effects ∧
    allExchHosts (headerGet resp2 X_ENPROXY_PROXY_HOST)
        (loopRun addr false (headerGet resp2 X_ENPROXY_PROXY_HOST) conn
           (some resp2) rest).effects
      = true :=
  ⟨by simp [loopRun, redialProxyIfNecessary],
   loopRun_hosts addr (headerGet resp2 X_ENPROXY_PROXY_HOST) conn (some resp2) rest⟩

/-- C10 (amended): every exchange the worker issues is acknowledged exactly
once, immediately after doRequest returns and before the response is
inspected, and every item drained during cleanup receives exactly one
acknowledgment; an item consumed from the input channel whose redial fails,
however, is never acknowledged. -/
theorem every_issued_exchange_acknowledged_once (addr : String) (f : Bool)
    (h : String) (conn : Nat) (resp : Option Response) (steps : List Step)
    (p : Bool) (pend : List Nat) (stops : Nat) (cs : List Bool) :
    ackFollows (loopRun addr f h conn resp steps).effects = true ∧
    ackCount (loopRun addr f h conn resp steps).effects
      = exchCount (loopRun addr f h conn resp steps).effects ∧
    ackCount (drainAcks p pend stops cs) = pend.length :=
  ⟨loopRun_ackFollows addr f h conn resp steps,
   loopRun_ack_eq_exch addr f h conn resp steps,
   by simp [ackCount, acksOf_drainAcks]⟩

/-- C10 is false as stated: an item consumed from the input channel whose
redial step fails is never acknowledged — the worker returns before any send
on the acknowledgment channel, and cleanup only drains items still inside the
channel. -/
theorem redial_failure_item_unacknowledged :
    (loopRun "example.org:80" false "ph" 1 none
        [Step.item 5 false (Res.fail "connection refused") (Res.fail "unused")]).consumed
      = [5] ∧
    ackCount (loopRun "example.org:80" false "ph" 1 none
        [Step.item 5 false (Res.fail "connection refused") (Res.fail "unused")]).effects
      = 0 :=
  ⟨rfl, rfl⟩

end Enproxy
